import Mathlib

/-!
Verification of the wallet/ledger consistency layer of the BYAMN-Workhub
marketplace application: the record validators, the read cache with request
coalescing, the authorization check, and the guarded money-movement
operations, shallowly embedded from the TypeScript source
(src/lib/data-cache.ts and its variants).

Numbers from the source are modelled as rationals.  Records read from the
document store are modelled as typed structures; where runtime absence of a
field is observable (the wallet validator) the fields are Option-valued and
the JavaScript comparison semantics on absent values is modelled explicitly.
Each operation is a sequential state transformer: runTransaction is applied
once to the current value of its path (the optimistic-retry loop of the store
is internal and, in a single-writer execution, applies the update function
exactly once to the latest committed value).
-/

namespace Workhub

/-- JavaScript comparison v less-than c where v may be undefined (an absent
field): any order comparison against undefined yields false. -/
def jsLt (v : Option ℚ) (c : ℚ) : Bool :=
  match v with
  | none => false
  | some q => decide (q < c)

/-- JavaScript comparison v greater-than c where v may be undefined. -/
def jsGt (v : Option ℚ) (c : ℚ) : Bool :=
  match v with
  | none => false
  | some q => decide (c < q)

/-- A raw wallet document as stored: each of the four balance fields is
either a number or absent. -/
structure WalletRecord where
  earnedBalance : Option ℚ
  addedBalance : Option ℚ
  pendingAddMoney : Option ℚ
  totalWithdrawn : Option ℚ
deriving DecidableEq, Repr

/-- validateWalletData (src/unnamed/part_001 lines 142-162): rejects a null
record, then rejects when any field compares below 0 or above 10,000,000
under JavaScript comparison semantics. -/
def validateWalletData (walletData : Option WalletRecord) : Bool :=
  match walletData with
  | none => false
  | some w =>
    if jsLt w.earnedBalance 0 || jsLt w.addedBalance 0 ||
       jsLt w.pendingAddMoney 0 || jsLt w.totalWithdrawn 0 then
      false
    else if jsGt w.earnedBalance 10000000 || jsGt w.addedBalance 10000000 ||
            jsGt w.pendingAddMoney 10000000 || jsGt w.totalWithdrawn 10000000 then
      false
    else
      true

/-- A fully-populated wallet balance, as produced inside the wallet
transactions (a missing wallet is defaulted to all-zero fields before any
arithmetic happens). -/
structure WalletBalance where
  earnedBalance : ℚ
  addedBalance : ℚ
  pendingAddMoney : ℚ
  totalWithdrawn : ℚ
deriving DecidableEq, Repr

def WalletBalance.toRecord (b : WalletBalance) : WalletRecord :=
  ⟨some b.earnedBalance, some b.addedBalance, some b.pendingAddMoney,
   some b.totalWithdrawn⟩

/-- The wallet validator applied to a fully-populated balance. -/
def validateWalletBalance (b : WalletBalance) : Bool :=
  validateWalletData (some b.toRecord)

/-- The default wallet used when the wallet path holds no data. -/
def zeroWallet : WalletBalance := ⟨0, 0, 0, 0⟩

/-- A present field is accepted exactly when its value lies in
[0, 10,000,000]; an absent field is accepted unconditionally. -/
def fieldInRange (v : Option ℚ) : Prop :=
  ∀ q, v = some q → 0 ≤ q ∧ q ≤ 10000000

theorem fieldInRange_iff (v : Option ℚ) :
    (jsLt v 0 = false ∧ jsGt v 10000000 = false) ↔ fieldInRange v := by
  cases v with
  | none => simp [jsLt, jsGt, fieldInRange]
  | some q => simp [jsLt, jsGt, fieldInRange, not_lt, and_comm]

/-- C2 (counterexample): a wallet record whose earnedBalance field is absent
is accepted by validateWalletData, contradicting the claim that a record
with a missing field is rejected. -/
theorem validateWalletData_accepts_missing_field :
    validateWalletData (some ⟨none, some 0, some 0, some 0⟩) = true ∧
    (⟨none, some 0, some 0, some 0⟩ : WalletRecord).earnedBalance = none := by
  constructor
  · decide
  · rfl

/-- C2 (amended): validateWalletData returns true for a non-null record iff
every field that is present lies in [0, 10,000,000]; absent fields are not
checked, because both JavaScript comparisons against undefined are false. -/
theorem validateWalletData_range_only (w : WalletRecord) :
    validateWalletData (some w) = true ↔
      fieldInRange w.earnedBalance ∧ fieldInRange w.addedBalance ∧
      fieldInRange w.pendingAddMoney ∧ fieldInRange w.totalWithdrawn := by
  rw [← fieldInRange_iff, ← fieldInRange_iff, ← fieldInRange_iff, ← fieldInRange_iff]
  unfold validateWalletData
  rcases w with ⟨e, a, p, t⟩
  by_cases h1 : jsLt e 0 = false <;> by_cases h2 : jsLt a 0 = false <;>
    by_cases h3 : jsLt p 0 = false <;> by_cases h4 : jsLt t 0 = false <;>
    by_cases h5 : jsGt e 10000000 = false <;> by_cases h6 : jsGt a 10000000 = false <;>
    by_cases h7 : jsGt p 10000000 = false <;> by_cases h8 : jsGt t 10000000 = false <;>
    simp_all

/-! ### The read cache (class DataCache) -/

/-- One cache entry: payload, write timestamp, and absolute expiry. -/
structure CacheEntry (α : Type) where
  data : α
  timestamp : ℚ
  expiry : ℚ
deriving DecidableEq, Repr

/-- The key-to-entry map of the cache, in JavaScript Map iteration order:
insertion order, where updating an existing key keeps its position. -/
abbrev CacheMap (α : Type) := List (String × CacheEntry α)

/-- JavaScript Map.get. -/
def jsMapLookup (m : List (String × β)) (k : String) : Option β :=
  match m with
  | [] => none
  | (k1, v) :: rest => if k1 = k then some v else jsMapLookup rest k

/-- JavaScript Map.set: update an existing key in place, else append. -/
def jsMapSet (m : List (String × β)) (k : String) (v : β) : List (String × β) :=
  match m with
  | [] => [(k, v)]
  | (k1, v1) :: rest =>
      if k1 = k then (k1, v) :: rest else (k1, v1) :: jsMapSet rest k v

/-- JavaScript Map.delete (keys are unique, so at most one hit). -/
def jsMapDelete (m : List (String × β)) (k : String) : List (String × β) :=
  match m with
  | [] => []
  | (k1, v1) :: rest => if k1 = k then rest else (k1, v1) :: jsMapDelete rest k

/-- CACHE_DURATION: 5 minutes in milliseconds. -/
def CACHE_DURATION : ℚ := 5 * 60 * 1000

/-- MAX_CACHE_SIZE: maximum number of cached items. -/
def MAX_CACHE_SIZE : ℕ := 100

/-- Number.MAX_SAFE_INTEGER, the start value of the oldest-timestamp scan. -/
def maxSafeInteger : ℚ := 9007199254740991

/-- DataCache.get (src/src/lib/data-cache.ts lines 48-63): null on an absent
key; when now is strictly past the expiry the entry is deleted and null is
returned; otherwise the stored data. Returns the result together with the
possibly-updated cache. -/
def cacheGet (now : ℚ) (m : CacheMap α) (key : String) : Option α × CacheMap α :=
  match jsMapLookup m key with
  | none => (none, m)
  | some e => if e.expiry < now then (none, jsMapDelete m key) else (some e.data, m)

/-- One step of the oldest-timestamp scan in DataCache.set: keep the best
(time, key) pair, replacing it when the entry under scan is strictly older. -/
def oldestStep (acc : ℚ × Option String) (kv : String × CacheEntry α) :
    ℚ × Option String :=
  if kv.2.timestamp < acc.1 then (kv.2.timestamp, some kv.1) else acc

/-- The scan in DataCache.set (src/src/lib/data-cache.ts lines 70-79): the
key of the entry with the smallest timestamp, scanning in iteration order
with the best-so-far initialised to Number.MAX_SAFE_INTEGER. -/
def findOldestKey (m : CacheMap α) : Option String :=
  (m.foldl oldestStep (maxSafeInteger, (none : Option String))).2

/-- Eviction step of DataCache.set (src/src/lib/data-cache.ts lines 68-84):
at capacity, delete the smallest-timestamp key when it is truthy
(found and non-empty). -/
def cacheEvict (m : CacheMap α) : CacheMap α :=
  if MAX_CACHE_SIZE ≤ m.length then
    match findOldestKey m with
    | some k => if k = "" then m else jsMapDelete m k
    | none => m
  else m

/-- DataCache.set (src/src/lib/data-cache.ts lines 66-94): evict if at
capacity, then store the new entry with timestamp now and expiry
now + CACHE_DURATION. -/
def cacheSet (now : ℚ) (m : CacheMap α) (key : String) (data : α) : CacheMap α :=
  jsMapSet (cacheEvict m) key ⟨data, now, now + CACHE_DURATION⟩

/-- Eviction step of the simpler DataCache.set (src/unnamed/part_001 lines
53-59): at capacity, delete the first key in iteration order when truthy. -/
def cacheEvictFifo (m : CacheMap α) : CacheMap α :=
  if MAX_CACHE_SIZE ≤ m.length then
    match m with
    | [] => m
    | (k, _) :: _ => if k = "" then m else jsMapDelete m k
  else m

/-- DataCache.set, simpler variant (src/unnamed/part_001 lines 52-66). -/
def cacheSetFifo (now : ℚ) (m : CacheMap α) (key : String) (data : α) : CacheMap α :=
  jsMapSet (cacheEvictFifo m) key ⟨data, now, now + CACHE_DURATION⟩

/-- DataCache.clear. -/
def cacheClear (m : CacheMap α) (key : String) : CacheMap α :=
  jsMapDelete m key

/-- DataCache.clearAll (the cache half; pending requests are cleared too). -/
def cacheClearAll (_ : CacheMap α) : CacheMap α := []

/-! Basic lemmas about the JavaScript Map model. -/

theorem jsMapLookup_jsMapSet_self (m : List (String × β)) (k : String) (v : β) :
    jsMapLookup (jsMapSet m k v) k = some v := by
  induction m with
  | nil => simp [jsMapSet, jsMapLookup]
  | cons kv rest ih =>
      by_cases h : kv.1 = k <;> simp [jsMapSet, jsMapLookup, h, ih]

theorem length_jsMapSet_le (m : List (String × β)) (k : String) (v : β) :
    (jsMapSet m k v).length ≤ m.length + 1 := by
  induction m with
  | nil => simp [jsMapSet]
  | cons kv rest ih =>
      by_cases h : kv.1 = k <;> simp [jsMapSet, h] <;> omega

theorem length_jsMapSet_of_not_mem (m : List (String × β)) (k : String) (v : β)
    (h : jsMapLookup m k = none) : (jsMapSet m k v).length = m.length + 1 := by
  induction m with
  | nil => simp [jsMapSet]
  | cons kv rest ih =>
      by_cases hk : kv.1 = k
      · simp [jsMapLookup, hk] at h
      · simp [jsMapLookup, hk] at h
        simp [jsMapSet, hk, ih h]

theorem length_jsMapDelete_le (m : List (String × β)) (k : String) :
    (jsMapDelete m k).length ≤ m.length := by
  induction m with
  | nil => simp [jsMapDelete]
  | cons kv rest ih =>
      by_cases h : kv.1 = k <;> simp [jsMapDelete, h] <;> omega

theorem length_jsMapDelete_of_mem (m : List (String × β)) (k : String)
    (h : k ∈ m.map Prod.fst) : (jsMapDelete m k).length + 1 = m.length := by
  induction m with
  | nil => simp at h
  | cons kv rest ih =>
      by_cases hk : kv.1 = k
      · simp [jsMapDelete, hk]
      · have : k ∈ rest.map Prod.fst := by
          simp at h
          rcases h with h | h
          · exact absurd h.symm hk
          · simpa using h
        simp [jsMapDelete, hk, ih this]

theorem jsMapLookup_jsMapDelete_self (m : List (String × β)) (k : String)
    (hnd : (m.map Prod.fst).Nodup) : jsMapLookup (jsMapDelete m k) k = none := by
  induction m with
  | nil => simp [jsMapDelete, jsMapLookup]
  | cons kv rest ih =>
      simp at hnd
      by_cases h : kv.1 = k
      · subst h
        cases hlk : jsMapLookup rest kv.1 with
        | none => simp [jsMapDelete, hlk]
        | some v =>
            exfalso
            have : kv.1 ∈ rest.map Prod.fst := by
              clear ih hnd
              induction rest with
              | nil => simp [jsMapLookup] at hlk
              | cons kv2 rest2 ih2 =>
                  by_cases h2 : kv2.1 = kv.1
                  · simp [h2]
                  · simp [jsMapLookup, h2] at hlk
                    simp [ih2 hlk]
            exact absurd this (by simpa using hnd.1)
      · simp [jsMapDelete, h, jsMapLookup, ih hnd.2]

theorem jsMapDelete_sublist (m : List (String × β)) (k : String) :
    (jsMapDelete m k).Sublist m := by
  induction m with
  | nil => simp [jsMapDelete]
  | cons kv rest ih =>
      by_cases h : kv.1 = k
      · simp [jsMapDelete, h]
      · simpa [jsMapDelete, h] using ih.cons₂ kv

theorem jsMapLookup_eq_none_iff (m : List (String × β)) (k : String) :
    jsMapLookup m k = none ↔ k ∉ m.map Prod.fst := by
  induction m with
  | nil => simp [jsMapLookup]
  | cons kv rest ih =>
      by_cases h : kv.1 = k
      · subst h
        rw [jsMapLookup, if_pos rfl]
        exact iff_of_false (by simp) (by simp)
      · rw [jsMapLookup, if_neg h, ih, List.map_cons]
        constructor
        · intro hk hc
          rcases List.mem_cons.mp hc with hc | hc
          · exact h hc.symm
          · exact hk hc
        · intro hk hc
          exact hk (List.mem_cons_of_mem _ hc)

theorem mem_keys_jsMapSet (m : List (String × β)) (k a : String) (v : β) :
    a ∈ (jsMapSet m k v).map Prod.fst ↔ a = k ∨ a ∈ m.map Prod.fst := by
  induction m with
  | nil => simp [jsMapSet]
  | cons kv rest ih =>
      by_cases h : kv.1 = k
      · subst h
        simp only [jsMapSet, if_pos rfl, List.map_cons]
        simp
      · simp only [jsMapSet, if_neg h, List.map_cons]
        simp [ih]
        tauto

theorem nodup_jsMapSet (m : List (String × β)) (k : String) (v : β)
    (hnd : (m.map Prod.fst).Nodup) : ((jsMapSet m k v).map Prod.fst).Nodup := by
  induction m with
  | nil => simp [jsMapSet]
  | cons kv rest ih =>
      rw [List.map_cons, List.nodup_cons] at hnd
      by_cases h : kv.1 = k
      · subst h
        rw [jsMapSet, if_pos rfl, List.map_cons, List.nodup_cons]
        exact hnd
      · rw [jsMapSet, if_neg h, List.map_cons, List.nodup_cons]
        refine ⟨?_, ih hnd.2⟩
        intro hc
        rcases (mem_keys_jsMapSet rest k kv.1 v).mp hc with hc | hc
        · exact h hc
        · exact hnd.1 hc

theorem nodup_jsMapDelete (m : List (String × β)) (k : String)
    (hnd : (m.map Prod.fst).Nodup) : ((jsMapDelete m k).map Prod.fst).Nodup :=
  ((jsMapDelete_sublist m k).map Prod.fst).nodup hnd

theorem nodup_cacheEvict (m : CacheMap α)
    (hnd : (m.map Prod.fst).Nodup) : ((cacheEvict m).map Prod.fst).Nodup := by
  unfold cacheEvict
  split
  · split
    · split
      · exact hnd
      · exact nodup_jsMapDelete _ _ hnd
    · exact hnd
  · exact hnd

theorem nodup_cacheSet (now : ℚ) (m : CacheMap α) (k : String) (v : α)
    (hnd : (m.map Prod.fst).Nodup) : ((cacheSet now m k v).map Prod.fst).Nodup :=
  nodup_jsMapSet _ _ _ (nodup_cacheEvict m hnd)

/-- C7: after set(key, value) at time t0, get(key) at time t returns value
while less than the 5-minute TTL has elapsed; once strictly more than the
TTL has elapsed it returns null and the expired entry is deleted; a key that
was never set yields null and leaves the cache unchanged. -/
theorem cacheGet_cacheSet_ttl (m : CacheMap α) (k : String) (v : α) (t0 t : ℚ)
    (hnd : (m.map Prod.fst).Nodup) :
    (t < t0 + CACHE_DURATION → (cacheGet t (cacheSet t0 m k v) k).1 = some v) ∧
    (t0 + CACHE_DURATION < t →
      (cacheGet t (cacheSet t0 m k v) k).1 = none ∧
      jsMapLookup (cacheGet t (cacheSet t0 m k v) k).2 k = none) ∧
    (jsMapLookup m k = none → cacheGet t m k = (none, m)) := by
  have hlk : jsMapLookup (cacheSet t0 m k v) k =
      some ⟨v, t0, t0 + CACHE_DURATION⟩ :=
    jsMapLookup_jsMapSet_self _ _ _
  refine ⟨?_, ?_, ?_⟩
  · intro ht
    have hno : ¬ ((⟨v, t0, t0 + CACHE_DURATION⟩ : CacheEntry α).expiry < t) := by
      simp only []
      linarith
    simp [cacheGet, hlk, hno]
  · intro ht
    have hyes : ((⟨v, t0, t0 + CACHE_DURATION⟩ : CacheEntry α).expiry < t) := ht
    constructor
    · simp [cacheGet, hlk, hyes]
    · simp only [cacheGet, hlk, if_pos hyes]
      exact jsMapLookup_jsMapDelete_self _ _ (nodup_cacheSet t0 m k v hnd)
  · intro h0
    simp [cacheGet, h0]

/-- C7 witness: concrete round trip at times 1 (fresh) and 600000 (expired),
and a get on an absent key. -/
theorem cacheGet_cacheSet_ttl_witness :
    (cacheGet 1 (cacheSet 0 ([] : CacheMap ℕ) "k" 7) "k").1 = some 7 ∧
    (cacheGet 600000 (cacheSet 0 ([] : CacheMap ℕ) "k" 7) "k").1 = none ∧
    cacheGet 600000 ([] : CacheMap ℕ) "missing" = (none, []) := by
  have hnd : ((([] : CacheMap ℕ)).map Prod.fst).Nodup := by simp
  refine ⟨(cacheGet_cacheSet_ttl [] "k" 7 0 1 hnd).1 ?_,
    ((cacheGet_cacheSet_ttl [] "k" 7 0 600000 hnd).2.1 ?_).1,
    (cacheGet_cacheSet_ttl [] "missing" 7 0 600000 hnd).2.2 ?_⟩
  · norm_num [CACHE_DURATION]
  · norm_num [CACHE_DURATION]
  · rfl

theorem foldl_oldestStep_some (m : CacheMap α) :
    ∀ (t : ℚ) (k0 : String),
      ∃ k, (m.foldl oldestStep (t, some k0)).2 = some k ∧
        (k = k0 ∨ k ∈ m.map Prod.fst) := by
  induction m with
  | nil => exact fun t k0 => ⟨k0, rfl, Or.inl rfl⟩
  | cons kv rest ih =>
      intro t k0
      by_cases hts : kv.2.timestamp < t
      · obtain ⟨k, hk, hmem⟩ := ih kv.2.timestamp kv.1
        refine ⟨k, ?_, ?_⟩
        · simpa [oldestStep, hts] using hk
        · rcases hmem with h | h
          · exact Or.inr (by simp [h])
          · exact Or.inr (by simp [h])
      · obtain ⟨k, hk, hmem⟩ := ih t k0
        refine ⟨k, ?_, ?_⟩
        · simpa [oldestStep, hts] using hk
        · rcases hmem with h | h
          · exact Or.inl h
          · exact Or.inr (by simp [h])

theorem findOldestKey_mem (m : CacheMap α) (hne : m ≠ [])
    (hts : ∀ kv ∈ m, kv.2.timestamp < maxSafeInteger) :
    ∃ k, findOldestKey m = some k ∧ k ∈ m.map Prod.fst := by
  match m with
  | [] => exact absurd rfl hne
  | kv :: rest =>
      have h0 : kv.2.timestamp < maxSafeInteger := hts kv (by simp)
      obtain ⟨k, hk, hmem⟩ := foldl_oldestStep_some rest kv.2.timestamp kv.1
      refine ⟨k, ?_, ?_⟩
      · simpa [findOldestKey, oldestStep, h0] using hk
      · rcases hmem with h | h
        · simp [h]
        · simp [h]

/-- C8: the capacity invariant. Under the reachable-state facts that keys
are non-empty and timestamps are below Number.MAX_SAFE_INTEGER, a cache of
at most 100 entries still has at most 100 entries after set (both the
smallest-timestamp variant and the first-key variant), get, clear and
clearAll; and a set of a fresh key into a full cache evicts exactly one
entry (the size stays exactly 100). -/
theorem cache_capacity_invariant (m : CacheMap α) (now : ℚ) (k : String) (v : α)
    (hlen : m.length ≤ MAX_CACHE_SIZE)
    (hkeys : ∀ kv ∈ m, kv.1 ≠ "")
    (hts : ∀ kv ∈ m, kv.2.timestamp < maxSafeInteger) :
    (cacheSet now m k v).length ≤ MAX_CACHE_SIZE ∧
    (cacheSetFifo now m k v).length ≤ MAX_CACHE_SIZE ∧
    (cacheGet now m k).2.length ≤ MAX_CACHE_SIZE ∧
    (cacheClear m k).length ≤ MAX_CACHE_SIZE ∧
    (cacheClearAll m).length = 0 ∧
    (m.length = MAX_CACHE_SIZE → jsMapLookup m k = none →
      (cacheSet now m k v).length = MAX_CACHE_SIZE ∧
      (cacheSetFifo now m k v).length = MAX_CACHE_SIZE) := by
  by_cases hcap : MAX_CACHE_SIZE ≤ m.length
  case pos =>
    have hlen100 : m.length = MAX_CACHE_SIZE := le_antisymm hlen hcap
    have hne : m ≠ [] := by
      intro h
      rw [h] at hlen100
      simp [MAX_CACHE_SIZE] at hlen100
    obtain ⟨k0, hk0, hmem⟩ := findOldestKey_mem m hne hts
    have hk0ne : k0 ≠ "" := by
      rcases List.mem_map.mp hmem with ⟨kv, hkv, hfst⟩
      rw [← hfst]
      exact hkeys kv hkv
    have hev : cacheEvict m = jsMapDelete m k0 := by
      simp [cacheEvict, hcap, hk0, hk0ne]
    have hevlen : (jsMapDelete m k0).length + 1 = m.length :=
      length_jsMapDelete_of_mem m k0 hmem
    have hsetlen : (cacheSet now m k v).length ≤ MAX_CACHE_SIZE := by
      have := length_jsMapSet_le (jsMapDelete m k0) k
        (⟨v, now, now + CACHE_DURATION⟩ : CacheEntry α)
      rw [cacheSet, hev]
      omega
    obtain ⟨kv0, rest, hm⟩ : ∃ kv0 rest, m = kv0 :: rest := by
      match m, hne with
      | kv0 :: rest, _ => exact ⟨kv0, rest, rfl⟩
    have hhdne : kv0.1 ≠ "" := hkeys kv0 (by simp [hm])
    have hevf : cacheEvictFifo m = rest := by
      rw [hm]
      simp [cacheEvictFifo, jsMapDelete, hhdne, ← hm, hcap]
    have hflen : (cacheSetFifo now m k v).length ≤ MAX_CACHE_SIZE := by
      have := length_jsMapSet_le rest k
        (⟨v, now, now + CACHE_DURATION⟩ : CacheEntry α)
      have hr : rest.length + 1 = m.length := by simp [hm]
      rw [cacheSetFifo, hevf]
      omega
    refine ⟨hsetlen, hflen, ?_, ?_, by simp [cacheClearAll], ?_⟩
    · unfold cacheGet
      match jsMapLookup m k with
      | none => exact hlen
      | some e =>
          by_cases he : e.expiry < now
          · simpa [he] using le_trans (length_jsMapDelete_le m k) hlen
          · simpa [he] using hlen
    · exact le_trans (length_jsMapDelete_le m k) hlen
    · intro _ hnone
      have hkmem : k ∉ m.map Prod.fst := (jsMapLookup_eq_none_iff m k).mp hnone
      have hkdel : jsMapLookup (jsMapDelete m k0) k = none := by
        rw [jsMapLookup_eq_none_iff]
        intro hc
        exact hkmem (((jsMapDelete_sublist m k0).map Prod.fst).subset hc)
      have hkrest : jsMapLookup rest k = none := by
        rw [jsMapLookup_eq_none_iff]
        intro hc
        exact hkmem (by simp [hm, hc])
      constructor
      · rw [cacheSet, hev, length_jsMapSet_of_not_mem _ _ _ hkdel]
        omega
      · rw [cacheSetFifo, hevf, length_jsMapSet_of_not_mem _ _ _ hkrest]
        have hr : rest.length + 1 = m.length := by simp [hm]
        omega
  case neg =>
    have hev : cacheEvict m = m := by simp [cacheEvict, hcap]
    have hevf : cacheEvictFifo m = m := by simp [cacheEvictFifo, hcap]
    have h99 : m.length + 1 ≤ MAX_CACHE_SIZE := by omega
    refine ⟨?_, ?_, ?_, ?_, by simp [cacheClearAll], ?_⟩
    · rw [cacheSet, hev]
      exact le_trans (length_jsMapSet_le m k _) h99
    · rw [cacheSetFifo, hevf]
      exact le_trans (length_jsMapSet_le m k _) h99
    · unfold cacheGet
      match jsMapLookup m k with
      | none => exact hlen
      | some e =>
          by_cases he : e.expiry < now
          · simpa [he] using le_trans (length_jsMapDelete_le m k) hlen
          · simpa [he] using hlen
    · exact le_trans (length_jsMapDelete_le m k) hlen
    · intro h100
      omega

/-- C8 witness: the invariant applied to a small concrete cache. -/
theorem cache_capacity_invariant_witness :
    (cacheSet 5 [("a", ⟨1, 0, 300000⟩)] "b" (2 : ℕ)).length ≤ MAX_CACHE_SIZE := by
  refine (cache_capacity_invariant [("a", ⟨1, 0, 300000⟩)] 5 "b" 2 ?_ ?_ ?_).1
  · simp [MAX_CACHE_SIZE]
  · intro kv hkv
    simp at hkv
    simp [hkv]
  · intro kv hkv
    simp at hkv
    rw [hkv]
    norm_num [maxSafeInteger]

/-! ### Request coalescing (pendingRequests / getOrCreatePendingRequest) -/

/-- The request-coalescing state: the pendingRequests map (key to the id of
the registered promise), a supply of fresh promise ids, and the number of
times a fetch factory has been invoked. -/
structure PendingState where
  pending : List (String × ℕ)
  nextId : ℕ
  factoryCalls : ℕ
deriving DecidableEq, Repr

/-- DataCache.getOrCreatePendingRequest (src/src/lib/data-cache.ts lines
167-192): return the registered promise when one exists for the key;
otherwise invoke the factory exactly once, register the resulting promise
under the key (setPending), and return it. The cleanup attached with
finally is modelled by settlePromise below. -/
def getOrCreatePendingRequest (key : String) (s : PendingState) :
    ℕ × PendingState :=
  match jsMapLookup s.pending key with
  | some p => (p, s)
  | none =>
      (s.nextId,
        { pending := jsMapSet s.pending key s.nextId
          nextId := s.nextId + 1
          factoryCalls := s.factoryCalls + 1 })

/-- The finally handler attached to the created promise: whichever way the
promise settles (outcome true = fulfilled, false = rejected), clearPending
deletes the key. -/
def settlePromise (outcome : Bool) (key : String) (s : PendingState) :
    PendingState :=
  { s with pending := jsMapDelete s.pending key }

/-- n calls to getOrCreatePendingRequest with the same key, none of which
settles in between (overlapping calls): the list of promises handed out and
the final state. -/
def overlappingCalls (key : String) : ℕ → PendingState → List ℕ × PendingState
  | 0, s => ([], s)
  | n + 1, s =>
      let r := getOrCreatePendingRequest key s
      let rest := overlappingCalls key n r.2
      (r.1 :: rest.1, rest.2)

theorem overlappingCalls_registered (key : String) (n : ℕ) (s : PendingState)
    (p : ℕ) (h : jsMapLookup s.pending key = some p) :
    overlappingCalls key n s = (List.replicate n p, s) := by
  induction n with
  | zero => simp [overlappingCalls]
  | succ n ih =>
      simp [overlappingCalls, getOrCreatePendingRequest, h, ih,
        List.replicate_succ]

/-- C6: request deduplication. (a) a call while a promise is registered for
the key returns that same promise, does not invoke the factory, and leaves
the state unchanged; (b) a call with no registered promise invokes the
factory exactly once and registers the returned promise under the key;
(c) settlement, fulfilled or rejected, deregisters the key; (d) hence n+1
overlapping calls with the same key all receive the same promise and invoke
the underlying fetch exactly once. -/
theorem getOrCreatePendingRequest_dedup (key : String) (s : PendingState)
    (n : ℕ) :
    (∀ p, jsMapLookup s.pending key = some p →
      getOrCreatePendingRequest key s = (p, s)) ∧
    (jsMapLookup s.pending key = none →
      (getOrCreatePendingRequest key s).2.factoryCalls = s.factoryCalls + 1 ∧
      jsMapLookup (getOrCreatePendingRequest key s).2.pending key =
        some (getOrCreatePendingRequest key s).1) ∧
    (∀ outcome, (s.pending.map Prod.fst).Nodup →
      jsMapLookup (settlePromise outcome key s).pending key = none) ∧
    (jsMapLookup s.pending key = none →
      (overlappingCalls key (n + 1) s).1 = List.replicate (n + 1) s.nextId ∧
      (overlappingCalls key (n + 1) s).2.factoryCalls = s.factoryCalls + 1) := by
  refine ⟨?_, ?_, ?_, ?_⟩
  · intro p hp
    simp [getOrCreatePendingRequest, hp]
  · intro h0
    simp [getOrCreatePendingRequest, h0, jsMapLookup_jsMapSet_self]
  · intro outcome hnd
    exact jsMapLookup_jsMapDelete_self _ _ hnd
  · intro h0
    have hstep : getOrCreatePendingRequest key s =
        (s.nextId,
          { pending := jsMapSet s.pending key s.nextId
            nextId := s.nextId + 1
            factoryCalls := s.factoryCalls + 1 }) := by
      simp [getOrCreatePendingRequest, h0]
    have hreg : jsMapLookup (jsMapSet s.pending key s.nextId) key =
        some s.nextId := jsMapLookup_jsMapSet_self _ _ _
    have hrest := overlappingCalls_registered key n
      ({ pending := jsMapSet s.pending key s.nextId
         nextId := s.nextId + 1
         factoryCalls := s.factoryCalls + 1 }) s.nextId hreg
    constructor
    · simp [overlappingCalls, hstep, hrest, List.replicate_succ]
    · simp [overlappingCalls, hstep, hrest]

/-- C6 witness: starting with nothing registered, three overlapping calls
invoke the factory once, and a settled promise is deregistered. -/
theorem getOrCreatePendingRequest_dedup_witness :
    (overlappingCalls "users" 3 ⟨[], 0, 0⟩).1 = [0, 0, 0] ∧
    (overlappingCalls "users" 3 ⟨[], 0, 0⟩).2.factoryCalls = 1 ∧
    jsMapLookup (settlePromise false "users"
      (overlappingCalls "users" 3 ⟨[], 0, 0⟩).2).pending "users" = none := by
  have h := getOrCreatePendingRequest_dedup "users" ⟨[], 0, 0⟩ 2
  refine ⟨?_, ?_, ?_⟩
  · exact (h.2.2.2 rfl).1
  · exact (h.2.2.2 rfl).2
  · have h2 := getOrCreatePendingRequest_dedup "users"
      (overlappingCalls "users" 3 ⟨[], 0, 0⟩).2 0
    exact h2.2.2.1 false (by decide)

/-! ### Authorization -/

/-- A stored user profile, as read by the authorization check. -/
structure UserProfile where
  role : String
  isBlocked : Bool
deriving DecidableEq, Repr

/-- The users subtree of the document store: uid to profile. -/
def UserStore : Type := String → Option UserProfile

/-- verifyUserAuthorization (src/unnamed/part_001 lines 109-139), returning
the decision together with the number of document-store reads performed.
requiredRole true models the literal argument admin; an empty id is falsy
and rejected up front. When no role is required and the acting id equals
the target id, the function returns true without reading the store. -/
def verifyUserAuthorization (users : UserStore) (currentUserId : String)
    (targetUserId : String) (requiredRole : Bool) : Bool × ℕ :=
  if currentUserId = "" ∨ targetUserId = "" then (false, 0)
  else if requiredRole then
    match users currentUserId with
    | some u => (decide (u.role = "admin") && !u.isBlocked, 1)
    | none => (false, 1)
  else if currentUserId = targetUserId then (true, 0)
  else
    match users currentUserId with
    | some u => (decide (u.role = "admin") && !u.isBlocked, 1)
    | none => (false, 1)

/-- C10: self-authorization never consults the user record. For every store
and every non-empty uid, verifyUserAuthorization uid uid with no required
role returns true with zero store reads; in particular the result is the
same whether the acting user record is missing or blocked. -/
theorem verifyUserAuthorization_self (users : UserStore) (uid : String)
    (h : uid ≠ "") :
    verifyUserAuthorization users uid uid false = (true, 0) := by
  simp [verifyUserAuthorization, h]

/-- C10 witness: a blocked, non-admin user (and a store with no record at
all) is still self-authorized with zero reads. -/
theorem verifyUserAuthorization_self_witness :
    verifyUserAuthorization (fun _ => some ⟨"user", true⟩) "u1" "u1" false
      = (true, 0) ∧
    verifyUserAuthorization (fun _ => none) "u1" "u1" false = (true, 0) := by
  constructor
  · exact verifyUserAuthorization_self (fun _ => some ⟨"user", true⟩) "u1"
      (by decide)
  · exact verifyUserAuthorization_self (fun _ => none) "u1" (by decide)

/-! ### Stored entities and their validators -/

/-- A stored campaign document (typed model of the fields the ledger
operations read and the validator checks). -/
structure Campaign where
  title : String
  description : String
  creatorId : String
  totalWorkers : ℚ
  rewardPerWorker : ℚ
  totalBudget : ℚ
  remainingBudget : ℚ
  createdAt : ℚ
  completedWorkers : ℚ
  status : String
deriving DecidableEq, Repr

/-- validateCampaignData (src/unnamed/part_001 lines 196-231): falsy required
strings rejected; title 1-100 chars; description 1-1000 chars; totalWorkers
in (0, 10000]; rewardPerWorker in [0.5, 10000]; totalBudget and
remainingBudget non-negative; remainingBudget at most totalBudget. -/
def validateCampaignData (c : Campaign) : Bool :=
  if c.title = "" ∨ c.description = "" ∨ c.creatorId = "" then false
  else if c.title.length < 1 ∨ 100 < c.title.length ∨
          c.description.length < 1 ∨ 1000 < c.description.length then false
  else if c.totalWorkers ≤ 0 ∨ 10000 < c.totalWorkers ∨
          c.rewardPerWorker < 1/2 ∨ 10000 < c.rewardPerWorker ∨
          c.totalBudget < 0 ∨ c.remainingBudget < 0 then false
  else if c.totalBudget < c.remainingBudget then false
  else true

/-- A stored work item (shape created by applyToCampaign). -/
structure Work where
  id : String
  userId : String
  userName : String
  campaignId : String
  proofUrl : String
  status : String
  submittedAt : ℚ
  reward : ℚ
deriving DecidableEq, Repr

/-! ### deductCampaignBudget (src/unnamed/part_001 lines 380-502) -/

/-- The slice of the store touched by deductCampaignBudget: the campaign
document and the creator's wallet. -/
structure DeductState where
  campaign : Option Campaign
  wallet : Option WalletBalance
deriving DecidableEq, Repr

/-- deductCampaignBudget with no acting id supplied (the authorization step
is skipped when currentUserId is absent). Phase 1 decrements the campaign
remainingBudget inside a transaction; phase 2 decrements the creator wallet
addedBalance inside a transaction; when phase 2 aborts, the campaign budget
is written back from the committed snapshot plus the amount. Errors are
thrown as Except.error; business non-applicability returns ok false. -/
def deductCampaignBudget (amount : ℚ) (uid : String) (s : DeductState) :
    Except String Bool × DeductState :=
  if amount ≤ 0 ∨ 10000000 < amount then
    (Except.error "Invalid amount for campaign budget deduction", s)
  else
    match s.campaign with
    | none => (Except.error "Campaign does not exist", s)
    | some c =>
      if c.creatorId ≠ uid then
        (Except.error "Unauthorized: You can only deduct from your own campaigns", s)
      else if ¬ validateCampaignData c then
        (Except.error "Invalid campaign data", s)
      else if ¬ validateCampaignData c ∨ c.remainingBudget < amount ∨
          ¬ validateCampaignData
              { c with remainingBudget := c.remainingBudget - amount } then
        (Except.ok false, s)
      else
        let c1 := { c with remainingBudget := c.remainingBudget - amount }
        let w := s.wallet.getD zeroWallet
        let w1 := { w with addedBalance := w.addedBalance - amount }
        let crollback := { c1 with remainingBudget := c1.remainingBudget + amount }
        if w.addedBalance < amount ∨ ¬ validateWalletBalance w1 then
          (Except.ok false, { s with campaign := some crollback })
        else if ¬ validateWalletBalance w1 then
          (Except.error "Wallet validation failed after deduction",
            { campaign := some crollback, wallet := some w1 })
        else
          (Except.ok true, { campaign := some c1, wallet := some w1 })

/-- C1: when the campaign-budget transaction commits and the wallet
transaction aborts (insufficient addedBalance or failed wallet
post-validation), deductCampaignBudget restores the campaign to its exact
pre-operation value, leaves the wallet untouched, and returns false. -/
theorem deductCampaignBudget_compensates (c : Campaign)
    (sw : Option WalletBalance) (amount : ℚ) (uid : String)
    (hpos : 0 < amount) (hmax : amount ≤ 10000000)
    (hcr : c.creatorId = uid)
    (hval : validateCampaignData c = true)
    (hbud : amount ≤ c.remainingBudget)
    (hval2 : validateCampaignData
      { c with remainingBudget := c.remainingBudget - amount } = true)
    (hwabort :
      (sw.getD zeroWallet).addedBalance < amount ∨
      validateWalletBalance
        { sw.getD zeroWallet with
            addedBalance := (sw.getD zeroWallet).addedBalance - amount }
        = false) :
    deductCampaignBudget amount uid ⟨some c, sw⟩ = (Except.ok false, ⟨some c, sw⟩) := by
  have h1 : ¬ (amount ≤ 0 ∨ 10000000 < amount) := by
    push_neg
    exact ⟨hpos, hmax⟩
  have h2 : ¬ (c.creatorId ≠ uid) := by simp [hcr]
  have h3 : ¬ (¬ validateCampaignData c = true) := by simp [hval]
  have h4 : ¬ (¬ validateCampaignData c = true ∨ c.remainingBudget < amount ∨
      ¬ validateCampaignData
          { c with remainingBudget := c.remainingBudget - amount } = true) := by
    push_neg
    exact ⟨by simp [hval], hbud, by simp [hval2]⟩
  have h5 : (sw.getD zeroWallet).addedBalance < amount ∨
      ¬ validateWalletBalance
          { sw.getD zeroWallet with
              addedBalance := (sw.getD zeroWallet).addedBalance - amount }
        = true := by
    rcases hwabort with h | h
    · exact Or.inl h
    · exact Or.inr (by simp [h])
  simp only [deductCampaignBudget]
  rw [if_neg h1, if_neg h2, if_neg h3, if_neg h4, if_pos h5]
  have hrestore : (c.remainingBudget - amount) + amount = c.remainingBudget := by
    ring
  cases c
  simp only at hrestore
  simp [hrestore]

/-- C1 witness: campaign with remaining budget 500, wallet with only 100
added balance; the deduction of 500 commits on the campaign, aborts on the
wallet, and the whole state is restored with result false. -/
theorem deductCampaignBudget_compensates_witness :
    deductCampaignBudget 500 "u1"
      ⟨some ⟨"t", "d", "u1", 10, 50, 500, 500, 0, 0, "active"⟩,
       some ⟨0, 100, 0, 0⟩⟩
      = (Except.ok false,
         ⟨some ⟨"t", "d", "u1", 10, 50, 500, 500, 0, 0, "active"⟩,
          some ⟨0, 100, 0, 0⟩⟩) := by
  apply deductCampaignBudget_compensates
    (⟨"t", "d", "u1", 10, 50, 500, 500, 0, 0, "active"⟩ : Campaign)
    (some ⟨0, 100, 0, 0⟩) 500 "u1"
  · norm_num
  · norm_num
  · rfl
  · norm_num [validateCampaignData]
    decide
  · norm_num
  · norm_num [validateCampaignData]
    decide
  · left
    norm_num [zeroWallet]

/-! ### processMoneyRequest (src/unnamed/part_001 lines 644-820) -/

/-- The request type argument (literal union add_money | withdrawal). -/
inductive ReqType where
  | add_money : ReqType
  | withdrawal : ReqType
deriving DecidableEq, Repr

/-- The string the request type compares against in the stored record. -/
def ReqType.toStr : ReqType → String
  | ReqType.add_money => "add_money"
  | ReqType.withdrawal => "withdrawal"

/-- The decision argument (literal union approved | rejected). -/
inductive ReqDecision where
  | approved : ReqDecision
  | rejected : ReqDecision
deriving DecidableEq, Repr

def ReqDecision.toStr : ReqDecision → String
  | ReqDecision.approved => "approved"
  | ReqDecision.rejected => "rejected"

/-- A stored money request document. -/
structure MoneyRequest where
  userId : String
  rtype : String
  amount : ℚ
  status : String
deriving DecidableEq, Repr

/-- The slice of the store touched by processMoneyRequest: the request
document, the user's wallet, and the totalWithdrawn counter of the user
profile (the only profile field this operation writes). -/
structure RequestState where
  request : Option MoneyRequest
  wallet : Option WalletBalance
  userTotalWithdrawn : Option ℚ
deriving DecidableEq, Repr

/-- processMoneyRequest with no acting admin id supplied (the authorization
step is skipped when currentAdminId is absent). The stored request must be
pending and match the caller-supplied (amount, type, userId) exactly before
the status write; approval then runs the wallet transaction, rolling the
request status back to pending when the transaction aborts. -/
def processMoneyRequest (rtype : ReqType) (userId : String) (amount : ℚ)
    (decision : ReqDecision) (s : RequestState) : Except String Bool × RequestState :=
  if amount ≤ 0 ∨
      (rtype = ReqType.add_money ∧ (amount < 10 ∨ 100000 < amount)) ∨
      (rtype = ReqType.withdrawal ∧ (amount < 500 ∨ 50000 < amount)) then
    (Except.error "Invalid amount for money request processing", s)
  else
    match s.request with
    | none => (Except.error "Request does not exist", s)
    | some rq =>
      if rq.status ≠ "pending" then
        (Except.error "Request is not in pending status", s)
      else if rq.amount ≠ amount ∨ rq.rtype ≠ rtype.toStr ∨ rq.userId ≠ userId then
        (Except.error "Request data does not match provided parameters", s)
      else
        let rq1 := { rq with status := decision.toStr }
        match decision with
        | ReqDecision.rejected => (Except.ok true, { s with request := some rq1 })
        | ReqDecision.approved =>
          let w := s.wallet.getD zeroWallet
          match rtype with
          | ReqType.add_money =>
            let w1 := { w with addedBalance := w.addedBalance + amount,
                               pendingAddMoney := max 0 (w.pendingAddMoney - amount) }
            if ¬ validateWalletBalance w ∨ ¬ validateWalletBalance w1 then
              (Except.ok false,
                { s with request := some ({ rq1 with status := "pending" }) })
            else if ¬ validateWalletBalance w1 then
              (Except.error "Wallet validation failed after add money",
                { s with request := some ({ rq1 with status := "pending" }),
                         wallet := some w1 })
            else
              (Except.ok true, { s with request := some rq1, wallet := some w1 })
          | ReqType.withdrawal =>
            let w1 := { w with earnedBalance := w.earnedBalance - amount,
                               totalWithdrawn := w.totalWithdrawn + amount }
            if ¬ validateWalletBalance w ∨ w.earnedBalance < amount ∨
                ¬ validateWalletBalance w1 then
              (Except.ok false,
                { s with request := some ({ rq1 with status := "pending" }) })
            else if ¬ validateWalletBalance w1 then
              (Except.error "Wallet validation failed after withdrawal",
                { s with request := some ({ rq1 with status := "pending" }),
                         wallet := some w1 })
            else
              match s.userTotalWithdrawn with
              | some tw =>
                if tw + amount < 0 then
                  (Except.error "Invalid total withdrawn value",
                    { s with request := some rq1, wallet := some w1 })
                else
                  (Except.ok true,
                    { request := some rq1, wallet := some w1,
                      userTotalWithdrawn := some (tw + amount) })
              | none =>
                (Except.ok true, { s with request := some rq1, wallet := some w1 })

/-- C3: when the stored request exists and is pending but its stored amount,
type, or userId differs from the caller-supplied arguments (which pass
input validation), processMoneyRequest throws the data-mismatch error and
the whole state - request status, wallet, profile counter - is unchanged. -/
theorem processMoneyRequest_mismatch_unchanged (rtype : ReqType)
    (userId : String) (amount : ℚ) (decision : ReqDecision) (s : RequestState)
    (rq : MoneyRequest) (hrq : s.request = some rq)
    (hamt : ¬ (amount ≤ 0 ∨
      (rtype = ReqType.add_money ∧ (amount < 10 ∨ 100000 < amount)) ∨
      (rtype = ReqType.withdrawal ∧ (amount < 500 ∨ 50000 < amount))))
    (hpend : rq.status = "pending")
    (hmis : rq.amount ≠ amount ∨ rq.rtype ≠ rtype.toStr ∨ rq.userId ≠ userId) :
    processMoneyRequest rtype userId amount decision s =
      (Except.error "Request data does not match provided parameters", s) := by
  simp only [processMoneyRequest, hrq]
  rw [if_neg hamt, if_neg (by simp [hpend]), if_pos hmis]

/-- C3 witness: a pending add-money request stored with amount 60, processed
with caller amount 50: mismatch error, state unchanged. -/
theorem processMoneyRequest_mismatch_unchanged_witness :
    processMoneyRequest ReqType.add_money "u1" 50 ReqDecision.approved
      ⟨some ⟨"u1", "add_money", 60, "pending"⟩, some ⟨0, 0, 0, 0⟩, none⟩ =
    (Except.error "Request data does not match provided parameters",
      ⟨some ⟨"u1", "add_money", 60, "pending"⟩, some ⟨0, 0, 0, 0⟩, none⟩) := by
  apply processMoneyRequest_mismatch_unchanged ReqType.add_money "u1" 50
    ReqDecision.approved _ ⟨"u1", "add_money", 60, "pending"⟩ rfl
  · push_neg
    refine ⟨by norm_num, fun _ => ?_, fun h => ?_⟩
    · constructor <;> norm_num
    · exact absurd h (by decide)
  · rfl
  · left
    norm_num

/-! ### approveWorkAndCredit (src/unnamed/part_001 lines 505-641) -/

/-- The two user-profile counters this operation writes. -/
structure UserCounters where
  earnedMoney : ℚ
  approvedWorks : ℚ
deriving DecidableEq, Repr

/-- The slice of the store touched by approveWorkAndCredit: the work item,
the worker's wallet, and the worker's profile counters. -/
structure ApproveState where
  work : Option Work
  wallet : Option WalletBalance
  user : Option UserCounters
deriving DecidableEq, Repr

/-- approveWorkAndCredit with no acting admin id supplied. The pending work
item is flipped to approved inside a transaction, the wallet earnedBalance
is credited inside a transaction (rolling the work status back on abort),
and the profile counters are incremented when the profile exists. -/
def approveWorkAndCredit (reward : ℚ) (s : ApproveState) :
    Except String Bool × ApproveState :=
  if reward ≤ 0 ∨ 10000 < reward then
    (Except.error "Invalid reward amount for work approval", s)
  else
    match s.work with
    | none => (Except.error "Work does not exist", s)
    | some wk =>
      if wk.status ≠ "pending" then
        (Except.error "Work is not in pending status", s)
      else if wk.reward ≤ 0 ∨ 10000 < wk.reward then
        (Except.error "Invalid reward in work data", s)
      else if wk.status ≠ "pending" ∨ wk.reward ≤ 0 ∨ 10000 < wk.reward then
        (Except.ok false, s)
      else
        let wk1 := { wk with status := "approved" }
        let w := s.wallet.getD zeroWallet
        let w1 := { w with earnedBalance := w.earnedBalance + reward }
        if ¬ validateWalletBalance w1 then
          (Except.ok false, { s with work := some ({ wk1 with status := "pending" }) })
        else
          match s.user with
          | some u =>
            if u.earnedMoney + reward < 0 ∨ u.approvedWorks + 1 < 0 then
              (Except.error "Invalid user data values",
                { s with work := some wk1, wallet := some w1 })
            else
              let u1 : UserCounters := ⟨u.earnedMoney + reward, u.approvedWorks + 1⟩
              if ¬ validateWalletBalance w1 then
                (Except.error "Wallet validation failed after work approval",
                  { work := some ({ wk1 with status := "pending" })
                    wallet := some w1
                    user := some ⟨max 0 (u1.earnedMoney - reward),
                                  max 0 (u1.approvedWorks - 1)⟩ })
              else
                (Except.ok true,
                  { work := some wk1, wallet := some w1, user := some u1 })
          | none =>
            if ¬ validateWalletBalance w1 then
              (Except.error "Wallet validation failed after work approval",
                { s with work := some ({ wk1 with status := "pending" }),
                         wallet := some w1 })
            else
              (Except.ok true, { s with work := some wk1, wallet := some w1 })

/-- C4: on a stored pending work item with valid reward, with a wallet that
stays valid after the credit and an existing profile with non-negative
counters, approveWorkAndCredit returns true, flips the work to approved,
credits earnedBalance by exactly reward, and increments earnedMoney by
reward and approvedWorks by one. -/
theorem approveWorkAndCredit_success (reward : ℚ) (wk : Work)
    (w : WalletBalance) (u : UserCounters)
    (hr1 : 0 < reward) (hr2 : reward ≤ 10000)
    (hst : wk.status = "pending")
    (hwr1 : 0 < wk.reward) (hwr2 : wk.reward ≤ 10000)
    (hval : validateWalletBalance
      { w with earnedBalance := w.earnedBalance + reward } = true)
    (hu1 : 0 ≤ u.earnedMoney) (hu2 : 0 ≤ u.approvedWorks) :
    approveWorkAndCredit reward ⟨some wk, some w, some u⟩ =
      (Except.ok true,
        ⟨some ({ wk with status := "approved" }),
         some ({ w with earnedBalance := w.earnedBalance + reward }),
         some ⟨u.earnedMoney + reward, u.approvedWorks + 1⟩⟩) := by
  simp only [approveWorkAndCredit, Option.getD_some]
  rw [if_neg (by push_neg; exact ⟨hr1, hr2⟩)]
  rw [if_neg (by simp [hst])]
  rw [if_neg (by push_neg; exact ⟨hwr1, hwr2⟩)]
  rw [if_neg (by push_neg; exact ⟨by simp [hst], hwr1, hwr2⟩)]
  rw [if_neg (by simp [hval])]
  rw [if_neg (by push_neg; constructor <;> linarith)]
  rw [if_neg (by simp [hval])]

/-- C4 witness: pending work with reward 50, wallet with earned balance 100,
profile counters (10, 2): returns true with wallet 150 and counters (60, 3). -/
theorem approveWorkAndCredit_success_witness :
    approveWorkAndCredit 50
      ⟨some ⟨"c1", "u1", "U", "c1", "", "pending", 0, 50⟩,
       some ⟨100, 0, 0, 0⟩, some ⟨10, 2⟩⟩ =
    (Except.ok true,
      ⟨some ⟨"c1", "u1", "U", "c1", "", "approved", 0, 50⟩,
       some ⟨150, 0, 0, 0⟩, some ⟨60, 3⟩⟩) := by
  have h := approveWorkAndCredit_success 50
    ⟨"c1", "u1", "U", "c1", "", "pending", 0, 50⟩ ⟨100, 0, 0, 0⟩ ⟨10, 2⟩
    (by norm_num) (by norm_num) rfl (by norm_num) (by norm_num)
    (by norm_num [validateWalletBalance, validateWalletData,
          WalletBalance.toRecord, jsLt, jsGt])
    (by norm_num) (by norm_num)
  norm_num at h
  convert h using 2

/-! ### applyToCampaign (src/unnamed/part_001 lines 823-905) -/

/-- The slice of the store touched by applyToCampaign: the campaign and the
work item at works/userId/campaignId. -/
structure ApplyState where
  campaign : Option Campaign
  work : Option Work
deriving DecidableEq, Repr

/-- applyToCampaign with no acting id supplied. The guard order follows the
source: input validation, already-applied check on the work path, campaign
existence, stored-campaign validation, active status, capacity, then the
work-item write and the completedWorkers increment. -/
def applyToCampaign (campaignId userId userName : String) (reward : ℚ)
    (now : ℚ) (s : ApplyState) : Except String Bool × ApplyState :=
  if campaignId = "" ∨ userId = "" ∨ userName = "" ∨
      reward ≤ 0 ∨ 10000 < reward then
    (Except.error "Invalid parameters for campaign application", s)
  else
    match s.work with
    | some _ => (Except.error "You have already applied to this campaign", s)
    | none =>
      match s.campaign with
      | none => (Except.error "Campaign does not exist", s)
      | some c =>
        if ¬ validateCampaignData c then
          (Except.error "Invalid campaign data", s)
        else if c.status ≠ "active" then
          (Except.error "Campaign is not active", s)
        else if c.totalWorkers ≤ c.completedWorkers then
          (Except.error "Campaign is full", s)
        else
          let wd : Work :=
            ⟨campaignId, userId, userName, campaignId, "", "pending", now, reward⟩
          if wd.reward ≤ 0 ∨ 10000 < wd.reward then
            (Except.error "Invalid reward in work data", s)
          else
            (Except.ok true,
              { campaign :=
                  some ({ c with completedWorkers := c.completedWorkers + 1 })
                work := some wd })

/-- C5: duplicate-application idempotency. A first applyToCampaign on an
active, non-full campaign with no existing work item succeeds, creates the
work item and increments completedWorkers by one; a second call with the
same (campaignId, userId) hits the already-applied guard, throws before any
write, and leaves the state unchanged - so completedWorkers is incremented
exactly once across the two calls. -/
theorem applyToCampaign_duplicate_guard (campaignId userId userName : String)
    (reward now now2 : ℚ) (c : Campaign)
    (hcid : campaignId ≠ "") (huid : userId ≠ "") (hun : userName ≠ "")
    (hr1 : 0 < reward) (hr2 : reward ≤ 10000)
    (hval : validateCampaignData c = true)
    (hact : c.status = "active")
    (hcap : c.completedWorkers < c.totalWorkers) :
    applyToCampaign campaignId userId userName reward now ⟨some c, none⟩ =
      (Except.ok true,
        ⟨some ({ c with completedWorkers := c.completedWorkers + 1 }),
         some ⟨campaignId, userId, userName, campaignId, "", "pending", now, reward⟩⟩) ∧
    applyToCampaign campaignId userId userName reward now2
        ⟨some ({ c with completedWorkers := c.completedWorkers + 1 }),
         some ⟨campaignId, userId, userName, campaignId, "", "pending", now, reward⟩⟩ =
      (Except.error "You have already applied to this campaign",
        ⟨some ({ c with completedWorkers := c.completedWorkers + 1 }),
         some ⟨campaignId, userId, userName, campaignId, "", "pending", now, reward⟩⟩) := by
  have hargs : ¬ (campaignId = "" ∨ userId = "" ∨ userName = "" ∨
      reward ≤ 0 ∨ 10000 < reward) := by
    push_neg
    exact ⟨hcid, huid, hun, hr1, hr2⟩
  constructor
  · simp only [applyToCampaign]
    rw [if_neg hargs]
    rw [if_neg (by simp [hval])]
    rw [if_neg (by simp [hact])]
    rw [if_neg (not_le.mpr hcap)]
    rw [if_neg (by push_neg; exact ⟨hr1, hr2⟩)]
  · simp only [applyToCampaign]
    rw [if_neg hargs]

/-- C5 witness: a concrete campaign with capacity 10 and 3 completed
workers; the first application succeeds with completedWorkers 4, the second
throws with the state unchanged. -/
theorem applyToCampaign_duplicate_guard_witness :
    applyToCampaign "c1" "u1" "U" 50 7 ⟨some ⟨"t", "d", "cr", 10, 50, 500, 500, 0, 3, "active"⟩, none⟩ =
      (Except.ok true,
        ⟨some ⟨"t", "d", "cr", 10, 50, 500, 500, 0, 4, "active"⟩,
         some ⟨"c1", "u1", "U", "c1", "", "pending", 7, 50⟩⟩) ∧
    applyToCampaign "c1" "u1" "U" 50 9
        ⟨some ⟨"t", "d", "cr", 10, 50, 500, 500, 0, 4, "active"⟩,
         some ⟨"c1", "u1", "U", "c1", "", "pending", 7, 50⟩⟩ =
      (Except.error "You have already applied to this campaign",
        ⟨some ⟨"t", "d", "cr", 10, 50, 500, 500, 0, 4, "active"⟩,
         some ⟨"c1", "u1", "U", "c1", "", "pending", 7, 50⟩⟩) := by
  have h := applyToCampaign_duplicate_guard "c1" "u1" "U" 50 7 9
    (⟨"t", "d", "cr", 10, 50, 500, 500, 0, 3, "active"⟩ : Campaign)
    (by decide) (by decide) (by decide) (by norm_num) (by norm_num)
    (by norm_num [validateCampaignData]
        decide)
    rfl (by norm_num)
  norm_num at h
  exact h

/-! ### fetchTimeBasedLeaderboard (src/src/lib/data-cache.ts lines 1163-1255,
the rolling-window variant; identical to src/unnamed/part_001 lines
1040-1132). The cache/pending plumbing around the fetch is the DataCache
model above; here the aggregation over the fetched users and works
snapshots is embedded as a pure function of the snapshots and now. -/

/-- The leaderboard period argument. -/
inductive Period where
  | daily : Period
  | weekly : Period
  | monthly : Period
deriving DecidableEq, Repr

/-- The rolling-window threshold per period (lines 1196-1206). -/
def periodThreshold : Period → ℚ → ℚ
  | Period.daily, now => now - 24 * 60 * 60 * 1000
  | Period.weekly, now => now - 7 * 24 * 60 * 60 * 1000
  | Period.monthly, now => now - 30 * 24 * 60 * 60 * 1000

/-- The per-work filter (lines 1216-1219): approved status, submittedAt
strictly inside the window, with up to 60 s of future drift allowed. -/
def inWindow (threshold now : ℚ) (wk : Work) : Bool :=
  decide (wk.status = "approved") && decide (threshold < wk.submittedAt) &&
    decide (wk.submittedAt ≤ now + 60000)

/-- A stored user document as read by the leaderboard (fullName and
profileImage may be absent; earnedMoney is carried by the document but this
variant of the code never reads it). -/
structure LbUser where
  fullName : Option String
  profileImage : Option String
  earnedMoney : ℚ
deriving DecidableEq, Repr

/-- userWorkCounts increment (lines 1220-1223): initialise an absent counter
to 0, then increment. -/
def bumpCount (counts : List (String × ℕ)) (uid : String) : List (String × ℕ) :=
  match jsMapLookup counts uid with
  | some n => jsMapSet counts uid (n + 1)
  | none => jsMapSet counts uid 1

/-- The inner-loop body (lines 1213-1225): bump the user's counter when the
work passes the window filter. -/
def tallyWork (threshold now : ℚ) (uid : String) (cs : List (String × ℕ))
    (wkEntry : String × Work) : List (String × ℕ) :=
  if inWindow threshold now wkEntry.2 then bumpCount cs uid else cs

/-- The outer-loop body (lines 1211-1227): fold one user's works. -/
def tallyUser (threshold now : ℚ) (cs : List (String × ℕ))
    (entry : String × List (String × Work)) : List (String × ℕ) :=
  entry.2.foldl (tallyWork threshold now entry.1) cs

/-- The nested loop over worksData (lines 1209-1227) building the per-user
counts of approved works inside the window. -/
def countsFor (threshold now : ℚ)
    (worksData : List (String × List (String × Work))) : List (String × ℕ) :=
  worksData.foldl (tallyUser threshold now) []

/-- One pre-rank leaderboard row (lines 1230-1236). -/
structure LbItem where
  uid : String
  fullName : String
  profileImage : Option String
  approvedWorks : ℕ
deriving DecidableEq, Repr

/-- One ranked leaderboard row (line 1240). -/
structure LbEntry where
  uid : String
  fullName : String
  profileImage : Option String
  approvedWorks : ℕ
  rank : ℕ
deriving DecidableEq, Repr

/-- The comparator (line 1238): sort by approvedWorks descending. The JS
sort is stable, so the result is the unique sorted stable permutation;
insertionSort with this non-strict relation computes exactly that. -/
def lbBefore (a b : LbItem) : Prop := b.approvedWorks ≤ a.approvedWorks

instance : DecidableRel lbBefore := fun a b =>
  inferInstanceAs (Decidable (b.approvedWorks ≤ a.approvedWorks))

/-- The ranking pass (line 1240): rank = index + 1. -/
def rankify (l : List LbItem) : List LbEntry :=
  l.enum.map
    (fun ie => ⟨ie.2.uid, ie.2.fullName, ie.2.profileImage,
      ie.2.approvedWorks, ie.1 + 1⟩)

/-- The aggregation core of fetchTimeBasedLeaderboard: empty result when
either snapshot is missing; otherwise map users to rows (Unknown fallback
name, counter defaulted to 0), keep rows with a positive count, sort by
count descending (stable), truncate to the top 50, and rank 1..N. -/
def fetchTimeBasedLeaderboard (p : Period) (now : ℚ)
    (usersData : List (String × LbUser))
    (worksData : List (String × List (String × Work))) : List LbEntry :=
  if usersData = [] ∨ worksData = [] then []
  else
    rankify
      ((List.insertionSort lbBefore
        ((usersData.map
          (fun uu =>
            (⟨uu.1, uu.2.fullName.getD "Unknown", uu.2.profileImage,
              (jsMapLookup (countsFor (periodThreshold p now) now worksData)
                uu.1).getD 0⟩ : LbItem))).filter
          (fun it => 0 < it.approvedWorks))).take 50)

/-- The specification-side count: the number of work items of uid with
approved status and submittedAt inside the window. -/
def countApprovedInWindow (threshold now : ℚ)
    (worksData : List (String × List (String × Work))) (uid : String) : ℕ :=
  ((jsMapLookup worksData uid).getD []).countP
    (fun e => inWindow threshold now e.2)

/-- Concrete users snapshot for the tiebreak counterexample: user a has
earnedMoney 10, user b has earnedMoney 999. -/
def lbUsersCx : List (String × LbUser) :=
  [("a", ⟨some "A", none, 10⟩), ("b", ⟨some "B", none, 999⟩)]

/-- Concrete works snapshot: one approved in-window work for each user. -/
def lbWorksCx : List (String × List (String × Work)) :=
  [("a", [("c1", ⟨"c1", "a", "A", "c1", "", "approved", 500000, 50⟩)]),
   ("b", [("c2", ⟨"c2", "b", "B", "c2", "", "approved", 500000, 50⟩)])]

/-- C9 (counterexample): with two users tied at one approved in-window work
each, the user with the smaller earnedMoney (a, 10) is ranked before the
user with the larger earnedMoney (b, 999): the sort comparator reads only
the approved-work count, so earned money is not used as a tiebreak,
contradicting the claimed ordering. -/
theorem fetchTimeBasedLeaderboard_no_tiebreak :
    fetchTimeBasedLeaderboard Period.daily 1000000 lbUsersCx lbWorksCx
      = [⟨"a", "A", none, 1, 1⟩, ⟨"b", "B", none, 1, 2⟩] ∧
    (jsMapLookup lbUsersCx "a").map LbUser.earnedMoney = some 10 ∧
    (jsMapLookup lbUsersCx "b").map LbUser.earnedMoney = some 999 ∧
    (10 : ℚ) < 999 := by
  refine ⟨?_, rfl, rfl, by norm_num⟩
  norm_num [fetchTimeBasedLeaderboard, countsFor, tallyUser, tallyWork,
    bumpCount, inWindow, periodThreshold, jsMapLookup, jsMapSet,
    List.insertionSort, List.orderedInsert, rankify, lbBefore, List.enum,
    lbUsersCx, lbWorksCx]
  rintro (h | h) <;> simp at h

theorem jsMapLookup_jsMapSet_ne (m : List (String × β)) (k k2 : String)
    (v : β) (h : k2 ≠ k) : jsMapLookup (jsMapSet m k v) k2 = jsMapLookup m k2 := by
  induction m with
  | nil =>
      simp only [jsMapSet, jsMapLookup]
      rw [if_neg (fun hc => h hc.symm)]
  | cons kv rest ih =>
      by_cases hk : kv.1 = k
      · subst hk
        simp only [jsMapSet, if_pos rfl, jsMapLookup]
        rw [if_neg (fun hc : kv.1 = k2 => h hc.symm),
          if_neg (fun hc : kv.1 = k2 => h hc.symm)]
      · simp only [jsMapSet, if_neg hk, jsMapLookup]
        by_cases h2 : kv.1 = k2
        · simp [h2]
        · simp [h2, ih]

theorem bumpCount_self (cs : List (String × ℕ)) (uid : String) :
    (jsMapLookup (bumpCount cs uid) uid).getD 0 =
      (jsMapLookup cs uid).getD 0 + 1 := by
  unfold bumpCount
  cases h : jsMapLookup cs uid <;> simp [h, jsMapLookup_jsMapSet_self]

theorem bumpCount_ne (cs : List (String × ℕ)) (uid u2 : String) (h : u2 ≠ uid) :
    jsMapLookup (bumpCount cs uid) u2 = jsMapLookup cs u2 := by
  unfold bumpCount
  cases hl : jsMapLookup cs uid <;> simp [jsMapLookup_jsMapSet_ne _ _ _ _ h]

theorem tallyWork_foldl_self (threshold now : ℚ) (uid : String)
    (ws : List (String × Work)) :
    ∀ cs, (jsMapLookup (ws.foldl (tallyWork threshold now uid) cs) uid).getD 0 =
      (jsMapLookup cs uid).getD 0 +
        ws.countP (fun e => inWindow threshold now e.2) := by
  induction ws with
  | nil => simp
  | cons e ws ih =>
      intro cs
      rw [List.foldl_cons, List.countP_cons]
      by_cases h : inWindow threshold now e.2
      · rw [tallyWork, if_pos h, ih, bumpCount_self]
        simp only [h, if_pos]
        omega
      · rw [tallyWork, if_neg h, ih]
        simp [h]

theorem tallyWork_foldl_ne (threshold now : ℚ) (uid u2 : String)
    (ws : List (String × Work)) (h : u2 ≠ uid) :
    ∀ cs, jsMapLookup (ws.foldl (tallyWork threshold now uid) cs) u2 =
      jsMapLookup cs u2 := by
  induction ws with
  | nil => simp
  | cons e ws ih =>
      intro cs
      by_cases hw : inWindow threshold now e.2
      · simp only [List.foldl_cons, tallyWork, if_pos hw, ih, bumpCount_ne _ _ _ h]
      · simp only [List.foldl_cons, tallyWork, if_neg hw, ih]

theorem countsFor_foldl (threshold now : ℚ)
    (worksData : List (String × List (String × Work))) (uid : String) :
    ∀ cs, (worksData.map Prod.fst).Nodup →
      (jsMapLookup (worksData.foldl (tallyUser threshold now) cs) uid).getD 0 =
        (jsMapLookup cs uid).getD 0 +
          ((jsMapLookup worksData uid).getD []).countP
            (fun e => inWindow threshold now e.2) := by
  induction worksData with
  | nil => simp [jsMapLookup]
  | cons entry rest ih =>
      intro cs hnd
      rw [List.map_cons, List.nodup_cons] at hnd
      by_cases h : entry.1 = uid
      · have hrest : jsMapLookup rest uid = none := by
          rw [jsMapLookup_eq_none_iff]
          rw [h] at hnd
          exact hnd.1
        rw [List.foldl_cons, ih _ hnd.2, hrest]
        simp only [Option.getD_none, List.countP_nil, Nat.add_zero]
        rw [tallyUser, ← h, tallyWork_foldl_self]
        simp [jsMapLookup, h]
      · have huser : jsMapLookup (tallyUser threshold now cs entry) uid =
            jsMapLookup cs uid :=
          tallyWork_foldl_ne threshold now entry.1 uid entry.2
            (fun hc => h hc.symm) cs
        rw [List.foldl_cons, ih _ hnd.2, tallyUser] at *
        rw [huser]
        simp [jsMapLookup, h]

theorem countsFor_eq (threshold now : ℚ)
    (worksData : List (String × List (String × Work))) (uid : String)
    (hnd : (worksData.map Prod.fst).Nodup) :
    (jsMapLookup (countsFor threshold now worksData) uid).getD 0 =
      countApprovedInWindow threshold now worksData uid := by
  unfold countsFor countApprovedInWindow
  simpa [jsMapLookup] using countsFor_foldl threshold now worksData uid [] hnd

instance : IsTotal LbItem lbBefore :=
  ⟨fun a b => le_total b.approvedWorks a.approvedWorks⟩

instance : IsTrans LbItem lbBefore :=
  ⟨fun _ _ _ hab hbc => le_trans hbc hab⟩

theorem length_rankify (l : List LbItem) : (rankify l).length = l.length := by
  simp [rankify]

theorem rankify_get (l : List LbItem) (i : ℕ) (h : i < (rankify l).length) :
    (rankify l).get ⟨i, h⟩ =
      ⟨(l.get ⟨i, by simpa [length_rankify] using h⟩).uid,
       (l.get ⟨i, by simpa [length_rankify] using h⟩).fullName,
       (l.get ⟨i, by simpa [length_rankify] using h⟩).profileImage,
       (l.get ⟨i, by simpa [length_rankify] using h⟩).approvedWorks,
       i + 1⟩ := by
  simp [rankify]

/-- C9 (amended): fetchTimeBasedLeaderboard (window variant) returns at most
50 entries; the i-th entry carries rank i+1 (ranks 1..N consecutive);
entries are sorted by approved-work count descending (ties keep snapshot
order - there is no earned-money tiebreak); and every entry has a positive
count equal to the number of its user's works with approved status and
submittedAt inside the rolling window (up to 60 s future drift). -/
theorem fetchTimeBasedLeaderboard_window_sort_rank (p : Period) (now : ℚ)
    (usersData : List (String × LbUser))
    (worksData : List (String × List (String × Work)))
    (hnd : (worksData.map Prod.fst).Nodup) :
    (fetchTimeBasedLeaderboard p now usersData worksData).length ≤ 50 ∧
    (∀ i (h : i < (fetchTimeBasedLeaderboard p now usersData worksData).length),
      ((fetchTimeBasedLeaderboard p now usersData worksData).get ⟨i, h⟩).rank
        = i + 1) ∧
    (∀ i j (hi : i < (fetchTimeBasedLeaderboard p now usersData worksData).length)
      (hj : j < (fetchTimeBasedLeaderboard p now usersData worksData).length),
      i ≤ j →
      ((fetchTimeBasedLeaderboard p now usersData worksData).get ⟨j, hj⟩).approvedWorks
        ≤ ((fetchTimeBasedLeaderboard p now usersData worksData).get ⟨i, hi⟩).approvedWorks) ∧
    (∀ e ∈ fetchTimeBasedLeaderboard p now usersData worksData,
      0 < e.approvedWorks ∧
      e.approvedWorks =
        countApprovedInWindow (periodThreshold p now) now worksData e.uid) := by
  by_cases hemp : usersData = [] ∨ worksData = []
  · refine ⟨by simp [fetchTimeBasedLeaderboard, hemp], ?_, ?_, ?_⟩
    · intro i h
      simp [fetchTimeBasedLeaderboard, hemp] at h
    · intro i j hi hj hij
      simp [fetchTimeBasedLeaderboard, hemp] at hi
    · intro e he
      simp [fetchTimeBasedLeaderboard, hemp] at he
  · have hout : fetchTimeBasedLeaderboard p now usersData worksData =
        rankify ((List.insertionSort lbBefore
          ((usersData.map
            (fun uu =>
              (⟨uu.1, uu.2.fullName.getD "Unknown", uu.2.profileImage,
                (jsMapLookup (countsFor (periodThreshold p now) now worksData)
                  uu.1).getD 0⟩ : LbItem))).filter
            (fun it => 0 < it.approvedWorks))).take 50) := by
      rw [fetchTimeBasedLeaderboard, if_neg hemp]
    set filtered :=
      (usersData.map
        (fun uu =>
          (⟨uu.1, uu.2.fullName.getD "Unknown", uu.2.profileImage,
            (jsMapLookup (countsFor (periodThreshold p now) now worksData)
              uu.1).getD 0⟩ : LbItem))).filter
        (fun it => 0 < it.approvedWorks) with hfilt
    set top := (List.insertionSort lbBefore filtered).take 50 with htop
    have hsorted : List.Sorted lbBefore (List.insertionSort lbBefore filtered) :=
      List.sorted_insertionSort lbBefore filtered
    have htopsorted : List.Pairwise lbBefore top :=
      List.Pairwise.sublist (List.take_sublist 50 _) hsorted
    have hlen_top : top.length ≤ 50 := by
      rw [htop]
      exact List.length_take_le 50 _
    have hitem : ∀ it ∈ top, 0 < it.approvedWorks ∧
        it.approvedWorks =
          countApprovedInWindow (periodThreshold p now) now worksData it.uid := by
      intro it hit
      have h1 : it ∈ List.insertionSort lbBefore filtered :=
        List.take_subset 50 _ hit
      have h2 : it ∈ filtered :=
        ((List.perm_insertionSort lbBefore filtered).mem_iff).mp h1
      rw [hfilt] at h2
      have h3 := List.mem_filter.mp h2
      have hpos : 0 < it.approvedWorks := by simpa using h3.2
      refine ⟨hpos, ?_⟩
      obtain ⟨uu, huu, heq⟩ := List.mem_map.mp h3.1
      rw [← heq]
      simpa using countsFor_eq (periodThreshold p now) now worksData uu.1 hnd
    refine ⟨?_, ?_, ?_, ?_⟩
    · rw [hout, length_rankify]
      exact hlen_top
    · intro i h
      revert h
      rw [hout]
      intro h
      rw [rankify_get top i h]
    · intro i j hi hj hij
      revert hi hj
      rw [hout]
      intro hi hj
      rw [rankify_get top i hi, rankify_get top j hj]
      dsimp only
      rcases Nat.lt_or_ge i j with hlt | hge
      · exact (List.pairwise_iff_get.mp htopsorted)
          ⟨i, by simpa [length_rankify] using hi⟩
          ⟨j, by simpa [length_rankify] using hj⟩ (Fin.mk_lt_mk.mpr hlt)
      · have hij2 : i = j := le_antisymm hij hge
        subst hij2
        exact le_refl _
    · intro e he
      rw [hout] at he
      obtain ⟨⟨i, hi⟩, hget⟩ := List.mem_iff_get.mp he
      rw [← hget, rankify_get top i hi]
      have hi2 : i < top.length := by simpa [length_rankify] using hi
      have hfact := hitem (top.get ⟨i, hi2⟩) (List.get_mem top i hi2)
      dsimp only
      exact hfact

/-- C9 (amended) witness: the concrete snapshots of the counterexample
satisfy the amended specification. -/
theorem fetchTimeBasedLeaderboard_window_sort_rank_witness :
    (fetchTimeBasedLeaderboard Period.daily 1000000 lbUsersCx lbWorksCx).length
      ≤ 50 ∧
    ∀ e ∈ fetchTimeBasedLeaderboard Period.daily 1000000 lbUsersCx lbWorksCx,
      0 < e.approvedWorks ∧
      e.approvedWorks =
        countApprovedInWindow (periodThreshold Period.daily 1000000) 1000000
          lbWorksCx e.uid := by
  have h := fetchTimeBasedLeaderboard_window_sort_rank Period.daily 1000000
    lbUsersCx lbWorksCx (by simp [lbWorksCx])
  exact ⟨h.1, h.2.2.2⟩

end Workhub
